import Mathlib

/-
Verification of `update_caldb.py`, a maintenance utility that synchronizes a
local CALDB instrument-calibration directory with the remote HEASARC catalog.

The script is embedded shallowly:
  * strings are `List Char` (`Str`); Python string operations
    (`splitlines`, `split('/')`, `rsplit('/', 3)`, `'"' in s`, `s.split('"')[0]`,
    `upper`, substring search) are translated as executable Lean functions;
  * the two regular expressions of `get_telescope_links` are translated as
    backtracking matchers with the semantics of `re.search` (a `.` does not
    match a newline, `.*` is unconstrained otherwise, alternatives are literal);
  * the outside world (environment variable, filesystem, HTTP outcome,
    download failures, `caldbinfo` output) is a `World` record of oracles;
  * the observable behaviour of `download_files` is a trace of `Event`s
    together with `Except PyErr Unit`: `.error e` models an uncaught Python
    exception escaping the function, `.ok ()` a normal return.
-/

abbrev Str := List Char

def str (s : String) : Str := s.toList

/-- The double-quote character, written via its code. -/
def quoteChar : Char := '\x22'

/-- Python errors that the embedded code can raise. `attributeError` models
`AttributeError` (calling a method on `None`), `valueError` models
`ValueError` (tuple unpacking with the wrong number of elements). -/
inductive PyErr
  | attributeError
  | valueError
  deriving DecidableEq, Repr

/-- Python line-break characters recognised by `str.splitlines` (the three
non-ASCII ones are written via their code points). -/
def isLineBreak (c : Char) : Bool :=
  c == '\n' || c == '\r' || c == '\x0b' || c == '\x0c' ||
  c == '\x1c' || c == '\x1d' || c == '\x1e' ||
  c == Char.ofNat 0x85 || c == Char.ofNat 0x2028 || c == Char.ofNat 0x2029

/-- `str.splitlines`: `acc` holds the current line reversed; `"\r\n"` counts
as one break; a trailing break opens no empty final line. -/
def pySplitlinesAux : Str → Str → List Str
  | [], acc => if acc.isEmpty then [] else [acc.reverse]
  | '\r' :: '\n' :: rest, acc => acc.reverse :: pySplitlinesAux rest []
  | c :: rest, acc =>
      if isLineBreak c then acc.reverse :: pySplitlinesAux rest []
      else pySplitlinesAux rest (c :: acc)

def pySplitlines (s : Str) : List Str := pySplitlinesAux s []

/-- Helper for `s.split('/')`: the first part and the remaining parts. -/
def pySplitSlashAux : Str → Str × List Str
  | [] => ([], [])
  | c :: rest =>
      let r := pySplitSlashAux rest
      if c = '/' then ([], r.1 :: r.2) else (c :: r.1, r.2)

/-- Python `s.split('/')`: always at least one (possibly empty) part. -/
def pySplitSlash (s : Str) : List Str :=
  (pySplitSlashAux s).1 :: (pySplitSlashAux s).2

/-- Python `'/'.join(parts)`. -/
def joinSlash (ps : List Str) : Str := List.intercalate ['/'] ps

/-- Python `s.rsplit('/', 3)`: at most the three rightmost separators split,
everything to their left stays one joined part. -/
def rsplitSlash3 (s : Str) : List Str :=
  let ps := pySplitSlash s
  if ps.length ≤ 4 then ps
  else joinSlash (ps.take (ps.length - 3)) :: ps.drop (ps.length - 3)

/-- The unpacking `_, mission, telescope, file_name = ...` of line 87: a list
of any other length raises `ValueError`. -/
def unpack4 : List Str → Except PyErr (Str × Str × Str)
  | [_, m, t, f] => Except.ok (m, t, f)
  | _ => Except.error PyErr.valueError

/-- Python `link.split('/')[-1]`. -/
def lastSeg (url : Str) : Str := (pySplitSlash url).getLastD []

/-- Python `'"' in s`. -/
def hasQuote : Str → Bool
  | [] => false
  | c :: rest => c == quoteChar || hasQuote rest

/-- Python `s.split('"')[0]`: the prefix before the first double quote. -/
def beforeFirstQuote : Str → Str
  | [] => []
  | c :: rest => if c == quoteChar then [] else c :: beforeFirstQuote rest

/-- Lines 85-86: truncate the captured href value at its first stray quote. -/
def strayFix (captured : Str) : Str :=
  if hasQuote captured then beforeFirstQuote captured else captured

/-- Python `re.search('ERROR', text)` as a Boolean: literal, case-sensitive
substring search. -/
def containsSub (needle : Str) : Str → Bool
  | [] => needle.isEmpty
  | c :: rest => List.isPrefixOf needle (c :: rest) || containsSub needle rest

/-- Python `s.upper()` (the identifiers here are ASCII). -/
def pyUpper (s : Str) : Str := s.map Char.toUpper

/- The regex `(A|a).*(HREF|href)=.*(T|t)ar file` of line 83, as a
backtracking matcher.  `re.search` scans every start position; `.` does not
match `'\n'`, so each `.*` gap must be newline-free. -/

def hrefU : Str := str "HREF="
def hrefL : Str := str "href="
def tarU : Str := str "Tar file"
def tarL : Str := str "tar file"

/-- Scan for `(T|t)ar file`, failing at a newline (the preceding `.*` cannot
cross one). -/
def seekTar : Str → Bool
  | [] => false
  | c :: rest =>
      if (c == 'T' || c == 't') && List.isPrefixOf (str "ar file") rest then true
      else if c == '\n' then false
      else seekTar rest

/-- Does `HREF=` or `href=` start here? -/
def hrefAt (l : Str) : Bool :=
  List.isPrefixOf hrefU l || List.isPrefixOf hrefL l

/-- Scan for `(HREF|href)=` then hand over to `seekTar`, failing at a
newline. -/
def seekHref : Str → Bool
  | [] => false
  | c :: rest =>
      if hrefAt (c :: rest) then seekTar ((c :: rest).drop 5)
      else if c == '\n' then false
      else seekHref rest

/-- Line 83: `re.search('(A|a).*(HREF|href)=.*(T|t)ar file', line)` as a
Boolean. -/
def tarLineMatch : Str → Bool
  | [] => false
  | c :: rest => ((c == 'A' || c == 'a') && seekHref rest) || tarLineMatch rest

/-- Declarative reading of the line-83 regex: some `A` or `a`, a newline-free
gap, `HREF=` or `href=`, a newline-free gap, `Tar file` or `tar file`. -/
def TarDecomp (l : Str) : Prop :=
  ∃ (pre g1 g2 post : Str) (a : Char) (h t : Str),
    (a = 'A' ∨ a = 'a') ∧ (h = hrefU ∨ h = hrefL) ∧ (t = tarU ∨ t = tarL) ∧
    '\n' ∉ g1 ∧ '\n' ∉ g2 ∧
    l = pre ++ a :: (g1 ++ (h ++ (g2 ++ (t ++ post))))

/-- The pattern the claim describes (modelled from the claim's words, for
comparison with the source regex): an anchor marker `A` or `a`, an href
attribute and a label containing the phrase `tar file`, case-insensitive in
the attribute spelling and in every letter of the label. -/
def SpecTarMatch (l : Str) : Prop :=
  ∃ (pre g1 g2 post : Str) (a : Char) (h t : Str),
    (a = 'A' ∨ a = 'a') ∧
    h.map Char.toLower = str "href=" ∧
    t.map Char.toLower = str "tar file" ∧
    l = pre ++ a :: (g1 ++ (h ++ (g2 ++ (t ++ post))))

/- The regex `(HREF|href)="(.*)"` of line 84.  `re.search` matches at the
first `HREF="` or `href="`; the greedy `(.*)` capture then runs to the last
double quote of the line. `.group(2)` on a failed search (`None`) raises
`AttributeError`. -/

def hrefQU : Str := str "HREF=\x22"
def hrefQL : Str := str "href=\x22"

/-- Suffix after the first `HREF="` / `href="` occurrence, if any. -/
def findHrefQuote : Str → Option Str
  | [] => none
  | c :: rest =>
      if List.isPrefixOf hrefQU (c :: rest) || List.isPrefixOf hrefQL (c :: rest)
      then some ((c :: rest).drop 6)
      else findHrefQuote rest

/-- The prefix of `l` before its last double quote, or `none` when `l` has no
quote. -/
def beforeLastQuote : Str → Option Str
  | [] => none
  | c :: rest =>
      match beforeLastQuote rest with
      | some r => some (c :: r)
      | none => if c == quoteChar then some [] else none

/-- `re.search('(HREF|href)="(.*)"', line).group(2)`, `none` when the search
fails (in which case the source raises `AttributeError`). -/
def hrefCapture (line : Str) : Option Str :=
  match findHrefQuote line with
  | none => none
  | some tail => beforeLastQuote tail

/-- Lines 83-88 for one line of the page: `none` when the line does not match
the tar-file pattern, otherwise the `(mission, telescope) ↦ url` entry, or
the Python error the body raises. -/
def processLine (line : Str) : Except PyErr (Option ((Str × Str) × Str)) :=
  if tarLineMatch line then
    match hrefCapture line with
    | none => Except.error PyErr.attributeError
    | some captured =>
        match unpack4 (rsplitSlash3 (strayFix captured)) with
        | Except.error e => Except.error e
        | Except.ok (m, t, _) => Except.ok (some ((m, t), strayFix captured))
  else Except.ok none

abbrev Links := List ((Str × Str) × Str)

/-- Python `dict` assignment: an existing key keeps its position and takes the
new value, a new key is appended. -/
def dictInsert (k : Str × Str) (v : Str) : Links → Links
  | [] => [(k, v)]
  | (k2, v2) :: rest =>
      if k2 = k then (k, v) :: rest else (k2, v2) :: dictInsert k v rest

/-- The extraction loop of lines 82-88 over the fetched lines. -/
def extractLinksAux : List Str → Links → Except PyErr Links
  | [], acc => Except.ok acc
  | line :: rest, acc =>
      match processLine line with
      | Except.error e => Except.error e
      | Except.ok none => extractLinksAux rest acc
      | Except.ok (some (k, url)) => extractLinksAux rest (dictInsert k url acc)

/-- The outcome of `urllib.request.urlopen` on the one page fetched: a decoded
body, an `HTTPError` carrying a status code, a `URLError` carrying a message,
or any other exception (the bare `except` of line 55). -/
inductive HttpOutcome
  | ok (body : Str)
  | httpError (code : Nat)
  | urlError (emsg : Str)
  | otherError

/-- The `list | str | None` return of `open_website`. -/
inductive WebResult
  | lines (ls : List Str)
  | text (s : Str)
  | noResult
  deriving DecidableEq

/-- `open_website` (lines 14-57): the printed messages and the result.  The
body decode is folded into `HttpOutcome.ok`; the timeout only affects the
real network call. -/
def open_website (url : Str) (outcome : HttpOutcome) (split verbose : Bool) :
    List Str × WebResult :=
  let loading := if verbose then [str "Loading " ++ url] else []
  match outcome with
  | HttpOutcome.ok body =>
      (loading, if split then WebResult.lines (pySplitlines body) else WebResult.text body)
  | HttpOutcome.httpError code =>
      (loading ++ [str "Cannot retrieve URL: HTTP Error Code " ++ str (toString code)],
       WebResult.noResult)
  | HttpOutcome.urlError emsg =>
      (loading ++ [str "Could not access the URL " ++ emsg], WebResult.noResult)
  | HttpOutcome.otherError =>
      (loading ++ [str "Unknown problem accessing URL."], WebResult.noResult)

def catalogUrl : Str :=
  str "https://heasarc.gsfc.nasa.gov/docs/heasarc/caldb/caldb_supported_missions.html"

/-- Iterating a Python value that is a list of lines, a plain string (each
character becomes an item) or `None`. -/
def asLines : WebResult → Option (List Str)
  | WebResult.noResult => none
  | WebResult.lines ls => some ls
  | WebResult.text s => some (s.map (fun c => [c]))

/-- `get_telescope_links` (lines 61-90): the printed messages and either the
link table, `none` for the `None` return on a failed fetch, or an uncaught
error raised by the loop body. -/
def get_telescope_links (outcome : HttpOutcome) :
    List Str × Except PyErr (Option Links) :=
  let fetched := open_website catalogUrl outcome true true
  match asLines fetched.2 with
  | none => (fetched.1, Except.ok none)
  | some ls =>
      match extractLinksAux ls [] with
      | Except.error e => (fetched.1, Except.error e)
      | Except.ok links => (fetched.1, Except.ok (some links))

/-- Observable actions of `download_files`. -/
inductive Event
  | msg (s : Str)
  | chdir (dir : Str)
  | retrieve (url dest : Str)
  | runTar (file : Str)
  | runCaldbinfo (args : List Str)
  deriving DecidableEq, Repr

/-- The outside world `download_files` interacts with: the `CALDB` variable,
the filesystem existence check, the catalog-page fetch outcome, whether
`urlretrieve` or the `tar` subprocess raises for a given entry, and the
(stdout, stderr) pair `subprocess.run(..., capture_output=True)` captures
for a given `caldbinfo` argument vector. -/
structure World where
  caldbEnv : Option Str
  fileExists : Str → Bool
  pageOutcome : HttpOutcome
  retrieveFails : Str → Bool
  tarFails : Str → Bool
  caldbinfoOut : List Str → Str × Str

/-- The `try` body of lines 111-116 for one entry: the events it performs and
whether it raises (caught by the bare `except` of line 117). -/
def tryBody (w : World) (m t link file : Str) : List Event × Bool :=
  let e1 := [Event.msg (str "Downloading " ++ m ++ str " " ++ t)]
  if w.retrieveFails link then (e1, true)
  else
    (e1 ++ [Event.retrieve link file,
            Event.msg (str "Unpacking " ++ m ++ str " " ++ t),
            Event.runTar file],
     w.tarFails file)

/-- One iteration of the download loop (lines 109-118). -/
def entryEvents (w : World) (kl : (Str × Str) × Str) : List Event :=
  let file := lastSeg kl.2
  if w.fileExists file then []
  else
    let r := tryBody w kl.1.1 kl.1.2 kl.2 file
    if r.2 then r.1 ++ [Event.msg (str "Problem downloading file.")] else r.1

/-- The download loop over all entries. -/
def downloadPass (w : World) : Links → List Event
  | [] => []
  | kl :: rest => entryEvents w kl ++ downloadPass w rest

/-- One iteration of the initialization loop (lines 121-131): entries with
mission key `data` are skipped; otherwise `caldbinfo INST MISSION TELESCOPE`
runs with captured output, its stdout is printed, and an `ERROR` in the
stdout adds a diagnostic naming the archive file. -/
def initEntry (w : World) (kl : (Str × Str) × Str) : List Event :=
  if kl.1.1 = str "data" then []
  else
    let args := [str "caldbinfo", str "INST", pyUpper kl.1.1, pyUpper kl.1.2]
    let out := w.caldbinfoOut args
    [Event.msg (str "Initializing " ++ kl.1.1 ++ str " " ++ kl.1.2),
     Event.runCaldbinfo args,
     Event.msg out.1] ++
    (if containsSub (str "ERROR") out.1
     then [Event.msg (str "Problem downloading " ++ lastSeg kl.2)] else [])

/-- The initialization loop over all entries. -/
def initPass (w : World) : Links → List Event
  | [] => []
  | kl :: rest => initEntry w kl ++ initPass w rest

/-- `download_files` (lines 93-131): the event trace and `.ok ()` for a
normal return, or `.error e` for an uncaught exception.  Note line 109
iterates `links.items()` without a `None` check: when `get_telescope_links`
returns `None` the attribute access raises `AttributeError`. -/
def download_files (w : World) : List Event × Except PyErr Unit :=
  match w.caldbEnv with
  | none => ([Event.msg (str "CALDB environment variable not set. Exiting.")], Except.ok ())
  | some dir =>
      let fetched := get_telescope_links w.pageOutcome
      let e1 := Event.chdir dir :: fetched.1.map Event.msg
      match fetched.2 with
      | Except.error e => (e1, Except.error e)
      | Except.ok none => (e1, Except.error PyErr.attributeError)
      | Except.ok (some links) =>
          (e1 ++ downloadPass w links ++ initPass w links, Except.ok ())

/-- The `caldbinfo` argument vectors a trace invokes, in order. -/
def caldbinfoArgsOf : List Event → List (List Str)
  | [] => []
  | Event.runCaldbinfo args :: rest => args :: caldbinfoArgsOf rest
  | _ :: rest => caldbinfoArgsOf rest

/-- Number of `'/'` characters in a string. -/
def countSlash (s : Str) : Nat := s.count '/'

/- Concrete worlds and inputs used to instantiate the theorems below. -/

def baseWorld : World :=
  { caldbEnv := some (str "/caldb")
    fileExists := fun _ => false
    pageOutcome := HttpOutcome.otherError
    retrieveFails := fun _ => false
    tarFails := fun _ => false
    caldbinfoOut := fun _ => (str "", str "") }

/-- A run whose catalog-page fetch fails with HTTP 404. -/
def w1 : World := { baseWorld with pageOutcome := HttpOutcome.httpError 404 }

/-- A run whose `caldbinfo` puts its error on stderr, keeping stdout clean. -/
def w3 : World :=
  { baseWorld with caldbinfoOut := fun _ => (str "done", str "ERROR: could not open output file") }

def kl3 : (Str × Str) × Str := ((str "nicer", str "xti"), str "https://h/m/nicer/gf.tar.gz")

/-- A run whose `caldbinfo` reports its error on stdout. -/
def w3b : World :=
  { baseWorld with caldbinfoOut := fun _ => (str "ERROR in calibration index", str "") }

/-- A run in which every archive file already exists locally. -/
def w6 : World := { baseWorld with fileExists := fun _ => true }

def links6 : Links := [((str "m", str "t"), str "a/b/c/d.tar.gz")]

def body7 : Str := str "<A HREF=\x22https://h/m/tel/f.tar.gz\x22>Tar file</A>"

/-- A run with one catalog entry whose download raises. -/
def w7 : World :=
  { baseWorld with pageOutcome := HttpOutcome.ok body7
                   retrieveFails := fun _ => true }

def links7 : Links := [((str "m", str "tel"), str "https://h/m/tel/f.tar.gz")]

def kl7 : (Str × Str) × Str := ((str "m", str "tel"), str "https://h/m/tel/f.tar.gz")

/-- A run without the `CALDB` environment variable. -/
def w9 : World := { baseWorld with caldbEnv := none }

/-- An anchor line whose label is upper-case `TAR FILE`. -/
def cexLine2 : Str := str "<a href=\x22x\x22>TAR FILE</a>"

/-- A matching line whose href path has no `/` separator. -/
def line4a : Str := str "<a href=\x22ab\x22>tar file</a>"

/-- A matching line with a well-formed archive URL. -/
def line4b : Str := str "<a href=\x22https://h/m/tel/f.tar.gz\x22>tar file</a>"

/-- A matching line whose greedy capture picks up a stray quote. -/
def line8 : Str := str "<a href=\x22u/r/l/f.gz\x22 x=\x22y\x22>tar file</a>"

/- Helper lemmas. -/

theorem isPrefixOf_append_self (l x : Str) : List.isPrefixOf l (l ++ x) = true :=
  List.isPrefixOf_iff_prefix.mpr ⟨x, rfl⟩

theorem exists_of_isPrefixOf {l x : Str} (h : List.isPrefixOf l x = true) :
    ∃ post, x = l ++ post := by
  rcases List.isPrefixOf_iff_prefix.mp h with ⟨post, hp⟩
  exact ⟨post, hp.symm⟩

theorem downloadPass_append (w : World) (l1 l2 : Links) :
    downloadPass w (l1 ++ l2) = downloadPass w l1 ++ downloadPass w l2 := by
  induction l1 with
  | nil => rfl
  | cons kl rest ih => simp [downloadPass, ih]

theorem caldbinfoArgsOf_append (l1 l2 : List Event) :
    caldbinfoArgsOf (l1 ++ l2) = caldbinfoArgsOf l1 ++ caldbinfoArgsOf l2 := by
  induction l1 with
  | nil => rfl
  | cons e rest ih => cases e <;> simp [caldbinfoArgsOf, ih]

/-- C9: if the `CALDB` environment variable is absent, the driver prints the
message and returns normally, with no directory change, no fetch and no
downloads (the trace holds the one message only). -/
theorem C9_missing_env (w : World) (h : w.caldbEnv = none) :
    download_files w =
      ([Event.msg (str "CALDB environment variable not set. Exiting.")], Except.ok ()) := by
  simp [download_files, h]

theorem C9_witness :
    download_files w9 =
      ([Event.msg (str "CALDB environment variable not set. Exiting.")], Except.ok ()) :=
  C9_missing_env w9 rfl

/-- C10: on a successful fetch, the line-mode result of `open_website` is the
line-split of its string-mode result for the same response. -/
theorem C10_split_relation (url body s : Str) (v : Bool)
    (h : (open_website url (HttpOutcome.ok body) false v).2 = WebResult.text s) :
    (open_website url (HttpOutcome.ok body) true v).2 = WebResult.lines (pySplitlines s) := by
  simp [open_website] at h ⊢
  rw [h]

theorem C10_witness :
    (open_website (str "u") (HttpOutcome.ok (str "a\nb")) true true).2 =
      WebResult.lines (pySplitlines (str "a\nb")) :=
  C10_split_relation (str "u") (str "a\nb") (str "a\nb") true rfl

/-- C1: when the catalog-page fetch fails, `get_telescope_links` returns the
`None` sentinel, and `download_files` then raises an uncaught
`AttributeError` at `links.items()` instead of terminating normally; no
download is attempted (the trace holds no retrieve event). -/
theorem C1_fetch_failure_raises :
    download_files w1 =
      ([Event.chdir (str "/caldb"),
        Event.msg (str "Loading " ++ catalogUrl),
        Event.msg (str "Cannot retrieve URL: HTTP Error Code 404")],
       Except.error PyErr.attributeError) := rfl

/-- C6: an entry whose local file already exists produces no events at all
(no download, no extraction), and when every entry's file exists the whole
download pass is empty, so a second run re-downloads nothing. -/
theorem C6_skip_existing (w : World) (links : Links)
    (h : ∀ kl ∈ links, w.fileExists (lastSeg kl.2) = true) :
    downloadPass w links = [] ∧
    ∀ (k : Str × Str) (link : Str), w.fileExists (lastSeg link) = true →
      entryEvents w (k, link) = [] := by
  constructor
  · induction links with
    | nil => rfl
    | cons kl rest ih =>
        have h1 := h kl (List.mem_cons_self kl rest)
        have h2 : downloadPass w rest = [] :=
          ih (fun kl2 hm => h kl2 (List.mem_cons_of_mem kl hm))
        simp [downloadPass, entryEvents, h1, h2]
  · intro k link h2
    simp [entryEvents, h2]

theorem C6_witness :
    downloadPass w6 links6 = [] ∧
    entryEvents w6 ((str "m", str "t"), str "a/b/c/d.tar.gz") = [] := by
  have h := C6_skip_existing w6 links6 (fun kl _ => rfl)
  exact ⟨h.1, h.2 (str "m", str "t") (str "a/b/c/d.tar.gz") rfl⟩

/-- C5: the initialization pass invokes `caldbinfo` exactly for the entries
whose mission key differs from `data`, and each invocation is
`caldbinfo INST MISSION TELESCOPE` with both identifiers upper-cased. -/
theorem C5_init_invocations (w : World) (links : Links) :
    caldbinfoArgsOf (initPass w links) =
      (links.filter (fun kl => !(kl.1.1 == str "data"))).map
        (fun kl => [str "caldbinfo", str "INST", pyUpper kl.1.1, pyUpper kl.1.2]) := by
  induction links with
  | nil => rfl
  | cons kl rest ih =>
      rw [initPass, caldbinfoArgsOf_append, ih, List.filter_cons]
      by_cases hm : kl.1.1 = str "data"
      · simp [initEntry, hm, caldbinfoArgsOf]
      · have hb : (kl.1.1 == str "data") = false := beq_eq_false_iff_ne.mpr hm
        cases hcs : containsSub (str "ERROR") (w.caldbinfoOut
            [str "caldbinfo", str "INST", pyUpper kl.1.1, pyUpper kl.1.2]).1 <;>
          simp [initEntry, hm, hb, hcs, caldbinfoArgsOf]

/-- C3 fails as stated: here the combined `caldbinfo` output contains `ERROR`
(on stderr), yet the initialization pass prints no diagnostic naming the
archive file. -/
theorem C3_counterexample :
    containsSub (str "ERROR")
      ((w3.caldbinfoOut [str "caldbinfo", str "INST", pyUpper (str "nicer"),
          pyUpper (str "xti")]).1 ++
       (w3.caldbinfoOut [str "caldbinfo", str "INST", pyUpper (str "nicer"),
          pyUpper (str "xti")]).2) = true ∧
    Event.msg (str "Problem downloading gf.tar.gz") ∉ initEntry w3 kl3 := by
  constructor
  · rfl
  · decide

/-- C3 amended: for a non-`data` entry the pass captures stdout and stderr
separately, prints the captured stdout, and prints the diagnostic naming the
URL's last path segment exactly when the stdout alone contains `ERROR`
case-sensitively; the captured stderr is ignored. -/
theorem C3_stdout_only (w : World) (m t link stdout stderr : Str)
    (hm : ¬ m = str "data")
    (hout : w.caldbinfoOut [str "caldbinfo", str "INST", pyUpper m, pyUpper t] =
      (stdout, stderr)) :
    initEntry w ((m, t), link) =
      [Event.msg (str "Initializing " ++ m ++ str " " ++ t),
       Event.runCaldbinfo [str "caldbinfo", str "INST", pyUpper m, pyUpper t],
       Event.msg stdout] ++
      (if containsSub (str "ERROR") stdout
       then [Event.msg (str "Problem downloading " ++ lastSeg link)] else []) := by
  simp [initEntry, hm, hout]

theorem C3_witness :
    initEntry w3b ((str "nustar", str "fpm"), str "a/b/c/d.tar.gz") =
      [Event.msg (str "Initializing " ++ str "nustar" ++ str " " ++ str "fpm"),
       Event.runCaldbinfo [str "caldbinfo", str "INST", pyUpper (str "nustar"),
         pyUpper (str "fpm")],
       Event.msg (str "ERROR in calibration index")] ++
      (if containsSub (str "ERROR") (str "ERROR in calibration index")
       then [Event.msg (str "Problem downloading " ++ lastSeg (str "a/b/c/d.tar.gz"))]
       else []) :=
  C3_stdout_only w3b (str "nustar") (str "fpm") (str "a/b/c/d.tar.gz")
    (str "ERROR in calibration index") (str "") (by decide) rfl

/-- C7: with the configuration present and a link table obtained, the driver
returns normally whatever the download or extraction failures; the download
pass handles every entry independently of its neighbours; and a failing
entry only logs the generic message after its download announcement. -/
theorem C7_failures_contained (w : World) (dir : Str) (links : Links)
    (henv : w.caldbEnv = some dir)
    (hgl : (get_telescope_links w.pageOutcome).2 = Except.ok (some links)) :
    (download_files w).2 = Except.ok () ∧
    (∀ (l1 : Links) (kl : (Str × Str) × Str) (l2 : Links),
       links = l1 ++ kl :: l2 →
       downloadPass w links =
         downloadPass w l1 ++ entryEvents w kl ++ downloadPass w l2) ∧
    (∀ (k : Str × Str) (link : Str),
       w.fileExists (lastSeg link) = false → w.retrieveFails link = true →
       entryEvents w (k, link) =
         [Event.msg (str "Downloading " ++ k.1 ++ str " " ++ k.2),
          Event.msg (str "Problem downloading file.")]) := by
  refine ⟨?_, ?_, ?_⟩
  · simp [download_files, henv, hgl]
  · intro l1 kl l2 hsplit
    rw [hsplit, downloadPass_append, downloadPass]
    exact (List.append_assoc _ _ _).symm
  · intro k link hex hrf
    simp [entryEvents, tryBody, hex, hrf]

theorem C7_witness :
    (download_files w7).2 = Except.ok () ∧
    entryEvents w7 ((str "m", str "tel"), str "https://h/m/tel/f.tar.gz") =
      [Event.msg (str "Downloading " ++ str "m" ++ str " " ++ str "tel"),
       Event.msg (str "Problem downloading file.")] := by
  have h := C7_failures_contained w7 (str "/caldb") links7 rfl rfl
  exact ⟨h.1, h.2.2 (str "m", str "tel") (str "https://h/m/tel/f.tar.gz") rfl rfl⟩

theorem pySplitSlashAux_snd_length (s : Str) :
    (pySplitSlashAux s).2.length = countSlash s := by
  induction s with
  | nil => rfl
  | cons c rest ih =>
      by_cases hc : c = '/'
      · subst hc
        simp [pySplitSlashAux, countSlash, List.count_cons_self] at *
        omega
      · have hne : '/' ≠ c := fun h => hc h.symm
        simp [pySplitSlashAux, hc, countSlash, List.count_cons_of_ne hne] at *
        exact ih

theorem length_pySplitSlash (s : Str) :
    (pySplitSlash s).length = countSlash s + 1 := by
  simp [pySplitSlash, pySplitSlashAux_snd_length]

theorem unpack4_error_of_length_ne (l : List Str) (h : l.length ≠ 4) :
    unpack4 l = Except.error PyErr.valueError := by
  rcases l with _ | ⟨a, _ | ⟨b, _ | ⟨c, _ | ⟨d, _ | ⟨e, r⟩⟩⟩⟩⟩
  · rfl
  · rfl
  · rfl
  · rfl
  · exact absurd rfl h
  · rfl

theorem rsplit_cases (url : Str) :
    (countSlash url < 3 → unpack4 (rsplitSlash3 url) = Except.error PyErr.valueError) ∧
    (3 ≤ countSlash url →
      ∃ m t f, unpack4 (rsplitSlash3 url) = Except.ok (m, t, f) ∧
        (pySplitSlash url).drop ((pySplitSlash url).length - 3) = [m, t, f]) := by
  have hlen := length_pySplitSlash url
  constructor
  · intro hlt
    have hr : rsplitSlash3 url = pySplitSlash url := by
      simp only [rsplitSlash3]
      rw [if_pos (by omega)]
    rw [hr]
    exact unpack4_error_of_length_ne _ (by omega)
  · intro hge
    by_cases hle : (pySplitSlash url).length ≤ 4
    · have htake : ((pySplitSlash url).take 1).length = 1 := by
        rw [List.length_take]; omega
      have hdrop : ((pySplitSlash url).drop 1).length = 3 := by
        rw [List.length_drop]; omega
      rcases List.length_eq_one.mp htake with ⟨a, ha⟩
      rcases List.length_eq_three.mp hdrop with ⟨m, t, f, hmtf⟩
      have hsplit : pySplitSlash url = a :: [m, t, f] := by
        calc pySplitSlash url
            = (pySplitSlash url).take 1 ++ (pySplitSlash url).drop 1 :=
              (List.take_append_drop 1 (pySplitSlash url)).symm
          _ = [a] ++ [m, t, f] := by rw [ha, hmtf]
      have hr : rsplitSlash3 url = pySplitSlash url := by
        simp only [rsplitSlash3]
        rw [if_pos hle]
      refine ⟨m, t, f, ?_, ?_⟩
      · rw [hr, hsplit]; rfl
      · rw [hsplit]; rfl
    · have hd3 : ((pySplitSlash url).drop ((pySplitSlash url).length - 3)).length = 3 := by
        rw [List.length_drop]; omega
      rcases List.length_eq_three.mp hd3 with ⟨m, t, f, hmtf⟩
      have hr : rsplitSlash3 url =
          joinSlash ((pySplitSlash url).take ((pySplitSlash url).length - 3)) ::
            (pySplitSlash url).drop ((pySplitSlash url).length - 3) := by
        simp only [rsplitSlash3]
        rw [if_neg hle]
      refine ⟨m, t, f, ?_, hmtf⟩
      rw [hr, hmtf]
      rfl

/-- C4: for a matching anchor line, a captured (and stray-quote-fixed) href
value with fewer than three `/` separators makes the extractor raise a
`ValueError` rather than skip the entry; with at least three, the stored
mission, telescope and filename are the third-to-last, second-to-last and
last path segments of the value. -/
theorem C4_path_split (line captured : Str)
    (hm : tarLineMatch line = true)
    (hc : hrefCapture line = some captured) :
    (countSlash (strayFix captured) < 3 →
      processLine line = Except.error PyErr.valueError) ∧
    (3 ≤ countSlash (strayFix captured) →
      ∃ m t f, processLine line = Except.ok (some ((m, t), strayFix captured)) ∧
        (pySplitSlash (strayFix captured)).drop
          ((pySplitSlash (strayFix captured)).length - 3) = [m, t, f]) := by
  constructor
  · intro hlt
    have h1 := (rsplit_cases (strayFix captured)).1 hlt
    simp [processLine, hm, hc, h1]
  · intro hge
    rcases (rsplit_cases (strayFix captured)).2 hge with ⟨m, t, f, hok, hdrop⟩
    exact ⟨m, t, f, by simp [processLine, hm, hc, hok], hdrop⟩

theorem C4_witness :
    processLine line4a = Except.error PyErr.valueError ∧
    ∃ m t f,
      processLine line4b =
        Except.ok (some ((m, t), strayFix (str "https://h/m/tel/f.tar.gz"))) ∧
      (pySplitSlash (strayFix (str "https://h/m/tel/f.tar.gz"))).drop
        ((pySplitSlash (strayFix (str "https://h/m/tel/f.tar.gz"))).length - 3) =
        [m, t, f] := by
  constructor
  · exact (C4_path_split line4a (str "ab") rfl rfl).1 (by decide)
  · exact (C4_path_split line4b (str "https://h/m/tel/f.tar.gz") rfl rfl).2 (by decide)

theorem hasQuote_beforeFirstQuote (l : Str) :
    hasQuote (beforeFirstQuote l) = false := by
  induction l with
  | nil => rfl
  | cons c rest ih =>
      by_cases hc : (c == quoteChar) = true
      · simp [beforeFirstQuote, hc, hasQuote]
      · have hb := eq_false_of_ne_true hc
        simp [beforeFirstQuote, hb, hasQuote, ih]

theorem beforeFirstQuote_id_of_no_quote {l : Str} (h : hasQuote l = false) :
    beforeFirstQuote l = l := by
  induction l with
  | nil => rfl
  | cons c rest ih =>
      rw [hasQuote, Bool.or_eq_false_iff] at h
      simp [beforeFirstQuote, h.1, ih h.2]

theorem strayFix_eq_beforeFirstQuote (l : Str) :
    strayFix l = beforeFirstQuote l := by
  by_cases h : hasQuote l = true
  · simp [strayFix, h]
  · have hb := eq_false_of_ne_true h
    simp [strayFix, hb, beforeFirstQuote_id_of_no_quote hb]

theorem hasQuote_strayFix (l : Str) : hasQuote (strayFix l) = false := by
  rw [strayFix_eq_beforeFirstQuote]
  exact hasQuote_beforeFirstQuote l

/-- C8: any URL the extractor stores carries no double quote, and it is
exactly the regex capture truncated at its first quote (the truncation is
the identity when no stray quote was captured). -/
theorem C8_no_quote (line : Str) (k : Str × Str) (url : Str)
    (h : processLine line = Except.ok (some (k, url))) :
    hasQuote url = false ∧
    ∀ captured, hrefCapture line = some captured → url = beforeFirstQuote captured := by
  by_cases hm : tarLineMatch line = true
  · cases hcap : hrefCapture line with
    | none => simp [processLine, hm, hcap] at h
    | some captured =>
        cases hun : unpack4 (rsplitSlash3 (strayFix captured)) with
        | error e => simp [processLine, hm, hcap, hun] at h
        | ok mtf =>
            obtain ⟨m, t, f⟩ := mtf
            simp only [processLine, hm, if_true, hcap, hun] at h
            have h1 := Option.some.inj (Except.ok.inj h)
            have hurl : url = strayFix captured := (congrArg Prod.snd h1).symm
            constructor
            · rw [hurl]
              exact hasQuote_strayFix captured
            · intro c2 hc2
              have hcc : captured = c2 := Option.some.inj hc2
              rw [hurl, ← hcc]
              exact strayFix_eq_beforeFirstQuote captured
  · have hb := eq_false_of_ne_true hm
    simp [processLine, hb] at h

theorem C8_witness :
    hasQuote (str "u/r/l/f.gz") = false ∧
    ∀ captured, hrefCapture line8 = some captured →
      str "u/r/l/f.gz" = beforeFirstQuote captured :=
  C8_no_quote line8 (str "r", str "l") (str "u/r/l/f.gz") rfl
theorem seekTar_of_lit (t post : Str) (ht : t = tarU ∨ t = tarL) :
    seekTar (t ++ post) = true := by
  rcases ht with rfl | rfl
  · show seekTar ('T' :: (str "ar file" ++ post)) = true
    simp [seekTar, isPrefixOf_append_self]
  · show seekTar ('t' :: (str "ar file" ++ post)) = true
    simp [seekTar, isPrefixOf_append_self]

theorem seekTar_complete (g t post : Str) (hg : '\n' ∉ g)
    (ht : t = tarU ∨ t = tarL) : seekTar (g ++ (t ++ post)) = true := by
  induction g with
  | nil => exact seekTar_of_lit t post ht
  | cons c g2 ih =>
      rw [List.cons_append]
      by_cases h1 : ((c == 'T' || c == 't') && List.isPrefixOf (str "ar file")
          (g2 ++ (t ++ post))) = true
      · simp [seekTar, h1]
      · have hb := eq_false_of_ne_true h1
        have hcn : (c == '\n') = false := by
          refine beq_eq_false_iff_ne.mpr (fun hc => ?_)
          exact hg (hc ▸ List.mem_cons_self c g2)
        have hg2 : '\n' ∉ g2 := fun hm => hg (List.mem_cons_of_mem c hm)
        simp [seekTar, hb, hcn]
        exact ih hg2

theorem seekTar_sound (l : Str) (hs : seekTar l = true) :
    ∃ g t post, '\n' ∉ g ∧ (t = tarU ∨ t = tarL) ∧ l = g ++ (t ++ post) := by
  induction l with
  | nil => simp [seekTar] at hs
  | cons c rest ih =>
      by_cases h1 : ((c == 'T' || c == 't') && List.isPrefixOf (str "ar file") rest) = true
      · rcases Bool.and_eq_true .. ▸ h1 with ⟨hc, hpre⟩
        rcases exists_of_isPrefixOf hpre with ⟨post, hrest⟩
        rcases Bool.or_eq_true .. ▸ hc with hT | ht
        · have hcT : c = 'T' := beq_iff_eq.mp hT
          refine ⟨[], tarU, post, by simp, Or.inl rfl, ?_⟩
          rw [hcT, hrest]
          rfl
        · have hct : c = 't' := beq_iff_eq.mp ht
          refine ⟨[], tarL, post, by simp, Or.inr rfl, ?_⟩
          rw [hct, hrest]
          rfl
      · have hb := eq_false_of_ne_true h1
        cases hcn : (c == '\n') with
        | true => simp [seekTar, hb, hcn] at hs
        | false =>
            simp [seekTar, hb, hcn] at hs
            rcases ih hs with ⟨g, t, post, hg, ht, hrest⟩
            refine ⟨c :: g, t, post, ?_, ht, ?_⟩
            · intro hm
              rcases List.mem_cons.mp hm with hh | hh
              · exact absurd (beq_iff_eq.mpr hh.symm) (by simp [hcn])
              · exact hg hh
            · rw [List.cons_append, hrest]

theorem hrefAt_append (h x : Str) (hh : h = hrefU ∨ h = hrefL) :
    hrefAt (h ++ x) = true := by
  rcases hh with rfl | rfl
  · simp [hrefAt, isPrefixOf_append_self]
  · simp [hrefAt, isPrefixOf_append_self]

theorem drop5_append (h x : Str) (hh : h = hrefU ∨ h = hrefL) :
    (h ++ x).drop 5 = x := by
  rcases hh with rfl | rfl
  · have h5 : hrefU.length = 5 := rfl
    rw [← h5, List.drop_left]
  · have h5 : hrefL.length = 5 := rfl
    rw [← h5, List.drop_left]

theorem seekHref_of_hrefAt {l : Str} (hl : hrefAt l = true) :
    seekHref l = seekTar (l.drop 5) := by
  cases l with
  | nil => exact absurd hl (by decide)
  | cons c rest => simp [seekHref, hl]

theorem seekHref_complete (g1 h g2 t post : Str)
    (hg1 : '\n' ∉ g1) (hh : h = hrefU ∨ h = hrefL) (hg2 : '\n' ∉ g2)
    (ht : t = tarU ∨ t = tarL) :
    seekHref (g1 ++ (h ++ (g2 ++ (t ++ post)))) = true := by
  induction g1 with
  | nil =>
      rw [List.nil_append]
      rw [seekHref_of_hrefAt (hrefAt_append h (g2 ++ (t ++ post)) hh)]
      rw [drop5_append h (g2 ++ (t ++ post)) hh]
      exact seekTar_complete g2 t post hg2 ht
  | cons c g1x ih =>
      rw [List.cons_append]
      by_cases hca : hrefAt (c :: (g1x ++ (h ++ (g2 ++ (t ++ post))))) = true
      · rw [seekHref_of_hrefAt hca]
        have hassoc : c :: (g1x ++ (h ++ (g2 ++ (t ++ post)))) =
            (c :: (g1x ++ (h ++ g2))) ++ (t ++ post) := by
          simp [List.append_assoc]
        have hhl : h.length = 5 := by rcases hh with rfl | rfl <;> rfl
        have h5 : 5 ≤ (c :: (g1x ++ (h ++ g2))).length := by
          simp only [List.length_cons, List.length_append, hhl]
          omega
        rw [hassoc, List.drop_append_of_le_length h5]
        apply seekTar_complete _ t post _ ht
        intro hm
        have hm2 := List.mem_of_mem_drop hm
        rcases List.mem_cons.mp hm2 with he | he
        · subst he
          exact hg1 (List.mem_cons_self _ _)
        · rcases List.mem_append.mp he with h1 | h12
          · exact hg1 (List.mem_cons_of_mem c h1)
          · rcases List.mem_append.mp h12 with h2 | h3
            · rcases hh with rfl | rfl
              · exact absurd h2 (by decide)
              · exact absurd h2 (by decide)
            · exact hg2 h3
      · have hb := eq_false_of_ne_true hca
        have hcn : (c == '\n') = false :=
          beq_eq_false_iff_ne.mpr (fun hc => hg1 (hc ▸ List.mem_cons_self c g1x))
        simp [seekHref, hb, hcn]
        exact ih (fun hm => hg1 (List.mem_cons_of_mem c hm))

theorem seekHref_sound (l : Str) (hs : seekHref l = true) :
    ∃ g1 h g2 t post, '\n' ∉ g1 ∧ (h = hrefU ∨ h = hrefL) ∧ '\n' ∉ g2 ∧
      (t = tarU ∨ t = tarL) ∧ l = g1 ++ (h ++ (g2 ++ (t ++ post))) := by
  induction l with
  | nil => simp [seekHref] at hs
  | cons c rest ih =>
      by_cases hca : hrefAt (c :: rest) = true
      · rw [seekHref_of_hrefAt hca] at hs
        have hd : ∃ hr x, (hr = hrefU ∨ hr = hrefL) ∧ c :: rest = hr ++ x := by
          rcases Bool.or_eq_true .. ▸ hca with h1 | h1
          · rcases exists_of_isPrefixOf h1 with ⟨x, hx⟩
            exact ⟨hrefU, x, Or.inl rfl, hx⟩
          · rcases exists_of_isPrefixOf h1 with ⟨x, hx⟩
            exact ⟨hrefL, x, Or.inr rfl, hx⟩
        rcases hd with ⟨hr, x, hhr, hx⟩
        rw [hx, drop5_append hr x hhr] at hs
        rcases seekTar_sound x hs with ⟨g2, t, post, hg2, ht, hxeq⟩
        refine ⟨[], hr, g2, t, post, by simp, hhr, hg2, ht, ?_⟩
        rw [List.nil_append, hx, hxeq]
      · have hb := eq_false_of_ne_true hca
        cases hcn : (c == '\n') with
        | true => simp [seekHref, hb, hcn] at hs
        | false =>
            simp [seekHref, hb, hcn] at hs
            rcases ih hs with ⟨g1, h, g2, t, post, hg1, hh, hg2, ht, heq⟩
            refine ⟨c :: g1, h, g2, t, post, ?_, hh, hg2, ht, ?_⟩
            · intro hm
              rcases List.mem_cons.mp hm with he | he
              · exact absurd (beq_iff_eq.mpr he.symm) (by simp [hcn])
              · exact hg1 he
            · rw [List.cons_append, heq]

theorem tarLineMatch_of_parts (pre : Str) (a : Char) (tail : Str)
    (ha : a = 'A' ∨ a = 'a') (hs : seekHref tail = true) :
    tarLineMatch (pre ++ a :: tail) = true := by
  induction pre with
  | nil =>
      have hab : (a == 'A' || a == 'a') = true := by
        rcases ha with rfl | rfl <;> decide
      simp [tarLineMatch, hab, hs]
  | cons c pre2 ih =>
      rw [List.cons_append]
      simp [tarLineMatch, ih]

theorem tarLineMatch_sound (l : Str) (hs : tarLineMatch l = true) : TarDecomp l := by
  induction l with
  | nil => simp [tarLineMatch] at hs
  | cons c rest ih =>
      rw [tarLineMatch, Bool.or_eq_true] at hs
      rcases hs with h1 | h1
      · rcases Bool.and_eq_true .. ▸ h1 with ⟨hab, hsh⟩
        have hc : c = 'A' ∨ c = 'a' := by
          rcases Bool.or_eq_true .. ▸ hab with h2 | h2
          · exact Or.inl (beq_iff_eq.mp h2)
          · exact Or.inr (beq_iff_eq.mp h2)
        rcases seekHref_sound rest hsh with ⟨g1, h, g2, t, post, hg1, hh, hg2, ht, heq⟩
        exact ⟨[], g1, g2, post, c, h, t, hc, hh, ht, hg1, hg2, by rw [List.nil_append, heq]⟩
      · rcases ih h1 with ⟨pre, g1, g2, post, a, h, t, ha, hh, ht, hg1, hg2, heq⟩
        exact ⟨c :: pre, g1, g2, post, a, h, t, ha, hh, ht, hg1, hg2,
          by rw [List.cons_append, heq]⟩

theorem tarLineMatch_complete (l : Str) (hd : TarDecomp l) : tarLineMatch l = true := by
  rcases hd with ⟨pre, g1, g2, post, a, h, t, ha, hh, ht, hg1, hg2, heq⟩
  rw [heq]
  exact tarLineMatch_of_parts pre a _ ha (seekHref_complete g1 h g2 t post hg1 hh hg2 ht)

/-- C2 amended: a line is treated as a tar-file link exactly when it matches
the source regex `(A|a).*(HREF|href)=.*(T|t)ar file`: an `A` or `a`, then
(without crossing a newline) `HREF=` or `href=`, then (without crossing a
newline) the label `Tar file` or `tar file` — only the first letter of the
label and the overall case of the attribute name vary, so labels such as
`TAR FILE` or `tAr file` do not match. -/
theorem C2_regex_characterization (l : Str) : tarLineMatch l = true ↔ TarDecomp l :=
  ⟨tarLineMatch_sound l, tarLineMatch_complete l⟩

/-- C2 fails as stated: this line carries an anchor with label `TAR FILE`,
which the claim's case-insensitive pattern accepts, yet the extractor does
not treat the line as a tar-file link. -/
theorem C2_counterexample :
    SpecTarMatch cexLine2 ∧ tarLineMatch cexLine2 = false := by
  constructor
  · refine ⟨str "<", str " ", str "\x22x\x22>", str "</a>", 'a', str "href=",
      str "TAR FILE", Or.inr rfl, by decide, by decide, by decide⟩
  · decide

